import Mathlib

/-!
Verification development for the compicc compositor colour-management
plug-in (src/compicc.c).  The definitions below are shallow embeddings of
the functions and macros of the C source; names follow the source where
Lean allows it.  External collaborators (X server region arithmetic, the
Oyranos colour engine, OpenGL) are abstracted: server-side regions become
point-membership functions, GL calls become a command trace over a small
GL state, and profile handles become opaque numeric identifiers.
-/

namespace Compicc

/-! ## Stencil router (compicc.c:87-96, 1740-1753)

`colour_desktop_region_count` is the screen-global running total written by
one `forEachWindowOnScreen(s, addWindowRegionCount, ...)` pass; a window is
modelled by its `nRegions` count, the screen by the stack-ordered list of
those counts. -/

/-- Translation of `addWindowRegionCount` (compicc.c:1740-1753).  Given the
running `count` and a window's `nRegions`, returns the window's
`stencil_id_start` and the updated running count.  Only windows with
`HAS_REGIONS(pw)` (i.e. `nRegions > 1`, compicc.c:96) advance the count;
other windows get `stencil_id_start = 0`. -/
def addWindowRegionCount (count : Nat) (nRegions : Nat) : Nat × Nat :=
  if 1 < nRegions then (count, count + nRegions) else (0, count)

/-- One reindex epoch: fold `addWindowRegionCount` over the screen's windows
in stack order (the `forEachWindowOnScreen` call at compicc.c:1790-1795,
starting from `colour_desktop_region_count = 0`).  Returns the list of
per-window `stencil_id_start` values and the final global region count. -/
def forEachWindowRegionCount : Nat → List Nat → List Nat × Nat
  | count, [] => ([], count)
  | count, n :: ws =>
    let sc := addWindowRegionCount count n
    let rest := forEachWindowRegionCount sc.2 ws
    (sc.1 :: rest.1, rest.2)

/-- Translation of the `STENCIL_ID` macro (compicc.c:94):
`1 + colour_desktop_region_count * i + pw->stencil_id_start + j`, where `i`
is the output (monitor context) index and `j` the region index. -/
def STENCIL_ID (colour_desktop_region_count i stencil_id_start j : Nat) : Nat :=
  1 + colour_desktop_region_count * i + stencil_id_start + j

/-- Modelled from the spec (§4.5): `idFor(window, regionIndex, outputIndex) =
1 + screenTotalSoFar(window) + regionIndex * outputCount + outputIndex`.
Stated only to compare against the source's `STENCIL_ID` formula. -/
def idFor_spec (screenTotalSoFar regionIndex outputIndex outputCount : Nat) : Nat :=
  1 + screenTotalSoFar + regionIndex * outputCount + outputIndex

/-- Closed form of the running total: the sum of the region counts of the
windows that satisfy `HAS_REGIONS` (`1 < n`). -/
def regionCountSum (ws : List Nat) : Nat :=
  (ws.map fun n => if 1 < n then n else 0).sum

/-! ## Profile store (compicc.c:497-571)

The Oyranos cache (`pluginGetPrivatesCache` / `oyStructList_GetHash` /
`oyHash_SetPointer`) is modelled as an association list from the 128-bit
MD5 (abstracted to `Nat`) to an opaque profile identifier.  An
`XcolorProfile` wire record carries the hash, the (already byte-swapped)
payload length, and — abstracting `oyProfile_FromMem` — whether the payload
parses and which profile object it yields. -/

structure XcolorProfile where
  md5 : Nat
  length : Nat
  parses : Bool
  profile : Nat
deriving DecidableEq

abbrev ProfileCache := List (Nat × Nat)

/-- Translation of `profileFromMD5` (compicc.c:559-571): look the hash up in
the screen-wide cache. -/
def profileFromMD5 (cache : ProfileCache) (md5 : Nat) : Option Nat :=
  (cache.find? fun e => e.1 == md5).map fun e => e.2

/-- Translation of the record loop of `updateScreenProfiles`
(compicc.c:497-557).  For each record: when `ntohl(profile->length)` is
non-zero and the hash is not cached, the profile is created and inserted;
a failed `oyProfile_FromMem` aborts the whole batch (`goto out`).  When the
length is zero the loop body does nothing — despite the comment at
compicc.c:528 that a zero length "means the clients wants to delete the
profile", no deletion is performed. -/
def updateScreenProfiles (cache : ProfileCache) : List XcolorProfile → ProfileCache
  | [] => cache
  | p :: rest =>
    if p.length ≠ 0 then
      match profileFromMD5 cache p.md5 with
      | some _ => updateScreenProfiles cache rest
      | none =>
        if p.parses then updateScreenProfiles ((p.md5, p.profile) :: cache) rest
        else cache
    else updateScreenProfiles cache rest

/-! ## Heartbeat ownership (compicc.c:2112-2268)

`updateIccColorDesktopAtom` reads the `_ICC_COLOR_DESKTOP` root atom
(`"<pid> <time> <capabilities> <name>"`) and negotiates ownership.  The
fetched atom is modelled as an `HbObservation`; the process-global state
(`colour_desktop_can`, `icc_color_desktop_last_time`, the per-output GL
textures `ps->contexts[i].cc.glTexture`) as `HbState`. -/

inductive HbAction
  | takeover
  | defer
  | keep
deriving DecidableEq

structure HbObservation where
  dataPresent : Bool
  oldPid : Nat
  pid : Nat
  atomTime : Int
  serverName : String
  request : Nat
  cutime : Int
deriving DecidableEq

/-- Translation of the ownership branch of `updateIccColorDesktopAtom`
(compicc.c:2161-2198).  `my_id` is `"compicc"`.  The takeover condition is
`atom_time < icc_color_desktop_last_time || name == "kolorserver" ||
request == 2` (compicc.c:2171-2175); takeover deletes the foreign atom.
The defer branch (`atom_time > icc_color_desktop_last_time`,
compicc.c:2185-2192) clears `colour_desktop_can`.  The 60-second staleness
comparison at compicc.c:2163 only emits a log message and is therefore
invisible in this model. -/
def ownershipAction (lastTime : Int) (o : HbObservation) : HbAction :=
  if o.dataPresent = true ∧ o.oldPid ≠ o.pid then
    if o.serverName ≠ "compicc" then
      if o.atomTime < lastTime ∨ o.serverName = "kolorserver" ∨ o.request = 2 then
        HbAction.takeover
      else if lastTime < o.atomTime then HbAction.defer
      else HbAction.keep
    else HbAction.keep
  else HbAction.keep

structure HbState where
  can : Bool
  lastTime : Int
  outputTex : List Nat
deriving DecidableEq

/-- State effect of `updateIccColorDesktopAtom` (compicc.c:2112-2268),
returning the new state and the C return status.  With
`colour_desktop_can == 0` the function returns 1 immediately
(compicc.c:2136-2137).  Otherwise: the ownership branch may clear the flag
(defer); the publish branch (`(atom_time + 10) < last_time || request == 2`,
compicc.c:2215-2216) rewrites the atom when `attached_profiles || request
== 2`, and otherwise — if a foreign atom existed — deletes the atom and
clears the flag (compicc.c:2231-2238); `icc_color_desktop_last_time` is set
to `cutime`; finally, whenever the flag ended up cleared, every per-output
GL texture is deleted (compicc.c:2259-2265).  `atom_time` stays 0 when no
atom data was fetched. -/
def updateIccColorDesktopAtomM (s : HbState) (o : HbObservation)
    (attachedProfiles : Nat) : HbState × Nat :=
  if s.can = false then (s, 1)
  else
    let atomTime : Int := if o.dataPresent then o.atomTime else 0
    let can1 : Bool := if ownershipAction s.lastTime o = HbAction.defer then false else s.can
    let can2 : Bool :=
      if atomTime + 10 < s.lastTime ∨ o.request = 2 then
        if attachedProfiles ≠ 0 ∨ o.request = 2 then can1
        else if o.dataPresent then false else can1
      else can1
    ({ can := can2, lastTime := o.cutime,
       outputTex := if can2 = false then s.outputTex.map fun _ => 0 else s.outputTex }, 0)

inductive CiccEvent
  | colorProfilesNotify
  | colorRegionsNotify
  | colorOutputsNotify
  | colorDesktopNotify
  | targetProfileNotify
  | desktopGeometryNotify
  | displayAdvancedNotify
  | randrOutputChange
  | otherEvent
deriving DecidableEq

inductive CiccAction
  | updateScreenProfilesA
  | updateWindowRegionsA
  | updateWindowOutputA
  | updateDesktopAtomA
  | updateOutputConfigurationA
  | setupOutputsA
deriving DecidableEq

/-- Dispatch performed by `pluginHandleEvent` after chaining to the wrapped
handler (compicc.c:1545-1700).  When `colour_desktop_can` is cleared the
function returns before any dispatch (compicc.c:1554-1555), so no colour
atom is processed. -/
def pluginHandleEventActions (can : Bool) (e : CiccEvent) : List CiccAction :=
  if can = false then []
  else
    match e with
    | CiccEvent.colorProfilesNotify => [CiccAction.updateScreenProfilesA]
    | CiccEvent.colorRegionsNotify => [CiccAction.updateWindowRegionsA]
    | CiccEvent.colorOutputsNotify => [CiccAction.updateWindowOutputA]
    | CiccEvent.colorDesktopNotify => [CiccAction.updateDesktopAtomA]
    | CiccEvent.targetProfileNotify => [CiccAction.updateOutputConfigurationA]
    | CiccEvent.desktopGeometryNotify =>
        [CiccAction.setupOutputsA, CiccAction.updateOutputConfigurationA]
    | CiccEvent.displayAdvancedNotify => [CiccAction.updateOutputConfigurationA]
    | CiccEvent.randrOutputChange =>
        [CiccAction.setupOutputsA, CiccAction.updateOutputConfigurationA]
    | CiccEvent.otherEvent => []

/-- Tokenisation of the capability section published at compicc.c:2220-2224:
`transform_n ? (stencilBits ? "|ICM|ICP|ICR|ICA|V0.3|" : "|ICM|ICR|ICA|V0.3|")
: "|V0.3|"`. -/
def capabilityTokens (transform_n stencilBits : Nat) : List String :=
  if transform_n ≠ 0 then
    if stencilBits ≠ 0 then ["ICM", "ICP", "ICR", "ICA", "V0.3"]
    else ["ICM", "ICR", "ICA", "V0.3"]
  else ["V0.3"]

/-! ## Window regions (compicc.c:459-465, 577-728)

A server-side `Region` is abstracted to its point-membership function on
`Int × Int`; `convertRegion` of a client region is therefore an opaque
membership function carried by the parsed record. -/

abbrev RegionPts := Int × Int → Bool

structure XRectangle where
  x : Int
  y : Int
  width : Int
  height : Int
deriving DecidableEq

def inRect (r : XRectangle) (p : Int × Int) : Bool :=
  decide (r.x ≤ p.1) && decide (p.1 < r.x + r.width) &&
  decide (r.y ≤ p.2) && decide (p.2 < r.y + r.height)

/-- Translation of `windowRegion` (compicc.c:459-465): the rectangle
`{0, 0, w->serverWidth, w->serverHeight}` as a point set. -/
def windowRegion (serverWidth serverHeight : Int) : RegionPts :=
  inRect { x := 0, y := 0, width := serverWidth, height := serverHeight }

/-- `XSubtractRegion(a, b, a)` on point sets. -/
def xSubtractRegion (a b : RegionPts) : RegionPts :=
  fun p => a p && !(b p)

/-- A parsed `XcolorRegion` record: the converted client region and whether
its 16-byte profile hash is all zero (compicc.c:643-650). -/
structure XcolorRegionRec where
  region : RegionPts
  md5zero : Bool

/-- Geometry part of `updateWindowRegions` (compicc.c:577-728): the new list
holds the converted client regions at indices `0 .. count-2`; the full
window rectangle is placed at index `count-1` and every client region is
subtracted from it in turn (compicc.c:634-648), leaving the implicit
remainder as the final entry. -/
def updateWindowRegionsM (serverWidth serverHeight : Int)
    (recs : List XcolorRegionRec) : List RegionPts :=
  (recs.map fun rr => rr.region) ++
  [recs.foldl (fun wr rr => xSubtractRegion wr rr.region) (windowRegion serverWidth serverHeight)]

/-- Union of a region list, as a point set. -/
def regionListUnion (l : List RegionPts) (p : Int × Int) : Bool :=
  l.any fun reg => reg p

/-! ## GL command traces for the two draw passes
(compicc.c:1767-1879 and 1888-2062)

The GL calls that the two hooked draw functions issue are recorded as a
command list; `applyCmd` tracks the part of GL server state the claims are
about (the stencil-test and scissor-test enable flags and the scissor box).
The X region arithmetic deciding whether a window/output intersection is
empty (compicc.c:1839-1845, 1959-1966) is abstracted by the per-window
oracle `emptyInter j i`. -/

def GL_KEEP : Nat := 0x1E00
def GL_REPLACE : Nat := 0x1E01
def GL_ZERO : Nat := 0
def GL_ALWAYS : Nat := 0x0207
def GL_EQUAL : Nat := 0x0202

inductive GLCap
  | stencilTest
  | scissorTest
  | texture3D
deriving DecidableEq

inductive GLCmd
  | enable (cap : GLCap)
  | disable (cap : GLCap)
  | stencilOp3 (sfail dpfail dppass : Nat)
  | stencilFunc (func ref : Nat)
  | colorMask (rgba : Bool)
  | scissor (box : Int × Int × Int × Int)
  | drawGeometry
  | setParams
  | bindTexture3D (tex : Nat)
  | drawTexture (corrected : Bool)
deriving DecidableEq

structure GLState where
  stencil : Bool
  scissorFlag : Bool
  scissorBox : Int × Int × Int × Int
deriving DecidableEq

def applyCmd (s : GLState) : GLCmd → GLState
  | GLCmd.enable GLCap.stencilTest => { s with stencil := true }
  | GLCmd.disable GLCap.stencilTest => { s with stencil := false }
  | GLCmd.enable GLCap.scissorTest => { s with scissorFlag := true }
  | GLCmd.disable GLCap.scissorTest => { s with scissorFlag := false }
  | GLCmd.scissor b => { s with scissorBox := b }
  | _ => s

def runCmds (s : GLState) (l : List GLCmd) : GLState :=
  l.foldl applyCmd s

/-- Concatenation of the lists produced by `f` over `l` (used for the
nested region/output loops). -/
def listJoinMap (f : α → List β) : List α → List β
  | [] => []
  | a :: l => f a ++ listJoinMap f l

structure PrivColorContextM where
  glTexture : Nat
deriving DecidableEq

structure PrivColorOutputM where
  xRect : XRectangle
  cc : PrivColorContextM
deriving DecidableEq

structure PrivScreenM where
  contexts : List PrivColorOutputM
  height : Int
  regionCountTotal : Nat

structure PrivColorRegionM where
  cc : Option (List PrivColorContextM)

structure PrivWindowM where
  nRegions : Nat
  stencil_id_start : Nat
  active : Nat
  regions : List PrivColorRegionM
  invisible : Bool
  emptyInter : Nat → Nat → Bool

def defaultOutput : PrivColorOutputM :=
  { xRect := { x := 0, y := 0, width := 0, height := 0 }, cc := { glTexture := 0 } }

/-- Translation of the GL side of `pluginDrawWindow` (compicc.c:1767-1879).
Windows without `HAS_REGIONS` return before touching any GL state
(compicc.c:1815-1817).  Otherwise: save `glIsEnabled(GL_STENCIL_TEST)`,
enable it, set the replace op, disable the colour mask, then for every
region `j` and output `i` set `glStencilFunc(GL_ALWAYS, STENCIL_ID, ~0)`
and draw the window geometry over the non-empty window/output intersection;
finally re-enable the colour mask and restore the stencil-test flag
(compicc.c:1870-1876). -/
def drawWindowStencilPass (init : GLState) (ps : PrivScreenM) (pw : PrivWindowM) :
    List GLCmd :=
  if 1 < pw.nRegions then
    [GLCmd.enable GLCap.stencilTest,
     GLCmd.stencilOp3 GL_KEEP GL_KEEP GL_REPLACE,
     GLCmd.colorMask false]
    ++ listJoinMap (fun j =>
         listJoinMap (fun i =>
           GLCmd.stencilFunc GL_ALWAYS
             (STENCIL_ID ps.regionCountTotal i pw.stencil_id_start j)
           :: (if pw.emptyInter j i then [] else [GLCmd.drawGeometry]))
           (List.range ps.contexts.length))
         (List.range pw.nRegions)
    ++ [GLCmd.colorMask true,
        if init.stencil then GLCmd.enable GLCap.stencilTest
        else GLCmd.disable GLCap.stencilTest]
  else []

/-- Choice of colour context for region `j` on output `i` in the texture
pass (compicc.c:1971-1989): an explicit region uses its own per-output
context `window_region->cc[i]`; the final region (the implicit remainder)
is switched to the output's default context `&ps->contexts[i].cc`, which is
then discarded (`c = NULL`) when the GPU reports zero stencil bits and the
window has more than one region. -/
def selectContext (stencilBits : Nat) (pw : PrivWindowM) (dflt : PrivColorContextM)
    (i j : Nat) : Option PrivColorContextM :=
  let c := (pw.regions[j]?.bind fun rr => rr.cc).bind fun cl => cl[i]?
  if j = pw.nRegions - 1 then
    if stencilBits = 0 ∧ 1 < pw.nRegions then none else some dflt
  else c

/-- GL commands for one region `j` on output `i` of the texture pass
(compicc.c:1956-2049): `glStencilFunc(GL_EQUAL, STENCIL_ID, ~0)` is always
issued; when no context was selected or the intersection is empty the body
is skipped (`goto cleanDrawTexture`); otherwise the shader scale/offset
parameters are set, the 3D texture is bound when present, and the inner
`drawWindowTexture` is invoked with the colour-correcting shader attributes
when a texture exists and with the original attributes otherwise. -/
def texRegionCmds (ps : PrivScreenM) (pw : PrivWindowM) (stencilBits i j : Nat) :
    List GLCmd :=
  let stencilCmd := GLCmd.stencilFunc GL_EQUAL
    (STENCIL_ID ps.regionCountTotal i pw.stencil_id_start j)
  match selectContext stencilBits pw (ps.contexts.getD i defaultOutput).cc i j with
  | none => [stencilCmd]
  | some ctx =>
    if pw.emptyInter j i then [stencilCmd]
    else
      stencilCmd :: GLCmd.setParams ::
      ((if ctx.glTexture ≠ 0 then
          [GLCmd.enable GLCap.texture3D, GLCmd.bindTexture3D ctx.glTexture]
        else [])
       ++ [GLCmd.drawTexture (ctx.glTexture ≠ 0)]
       ++ (if ctx.glTexture ≠ 0 then
            [GLCmd.bindTexture3D 0, GLCmd.disable GLCap.texture3D]
          else []))

/-- The region loop of the texture pass entered at region index `j0`.
Normal entry is `j0 = 0`; an invisible window jumps into the loop body at
the cleanup label (compicc.c:1953-1954), so after the increment the loop
continues from the preserved counter plus one. -/
def texRegionsFrom (ps : PrivScreenM) (pw : PrivWindowM) (stencilBits i j0 : Nat) :
    List GLCmd :=
  listJoinMap (fun k => texRegionCmds ps pw stencilBits i (j0 + k))
    (List.range (pw.nRegions - j0))

/-- The scissor rectangle for output `i`: the output geometry flipped into
GL window coordinates (compicc.c:1928). -/
def scissorRectFor (sHeight : Int) (r : XRectangle) : Int × Int × Int × Int :=
  (r.x, sHeight - r.y - r.height, r.width, r.height)

/-- One output iteration of the texture pass (compicc.c:1921-2052): with
more than one output the scissor box is first read (`GL_SCISSOR_BOX`,
passed in as `box`) and set to the output rectangle, and restored at the
end of the iteration; a visible window runs the region loop from 0, an
invisible one enters it at the cleanup label with the preserved counter
`jIn`.  Returns the emitted commands and the region counter after the
loop. -/
def texOutputCmds (ps : PrivScreenM) (pw : PrivWindowM) (stencilBits : Nat)
    (box : Int × Int × Int × Int) (i jIn : Nat) : List GLCmd × Nat :=
  let r := (ps.contexts.getD i defaultOutput).xRect
  let pre := if 1 < ps.contexts.length then
      [GLCmd.scissor (scissorRectFor ps.height r)] else []
  let body := if pw.invisible then texRegionsFrom ps pw stencilBits i (jIn + 1)
    else texRegionsFrom ps pw stencilBits i 0
  let jOut := if pw.invisible then max (jIn + 1) pw.nRegions else pw.nRegions
  let post := if 1 < ps.contexts.length then [GLCmd.scissor box] else []
  (pre ++ body ++ post, jOut)

/-- The output loop of the texture pass, threading the GL state (for the
`GL_SCISSOR_BOX` read) and the region counter through the iterations. -/
def texOutputsLoop (ps : PrivScreenM) (pw : PrivWindowM) (stencilBits : Nat) :
    GLState → Nat → List Nat → List GLCmd
  | _, _, [] => []
  | s, j, i :: rest =>
    let cj := texOutputCmds ps pw stencilBits s.scissorBox i j
    cj.1 ++ texOutputsLoop ps pw stencilBits (runCmds s cj.1) cj.2 rest

/-- Translation of the GL side of `pluginDrawWindowTexture`
(compicc.c:1888-2062).  Inactive windows return immediately
(compicc.c:1898-1899).  Otherwise both test flags are saved; a window with
regions enables the stencil test and sets the zero op, a window with only
the implicit remainder enables the scissor test instead
(compicc.c:1913-1918); the output loop runs; finally both flags are
restored (compicc.c:2054-2061). -/
def drawWindowTexturePass (init : GLState) (ps : PrivScreenM) (pw : PrivWindowM)
    (stencilBits : Nat) : List GLCmd :=
  if pw.active = 0 then []
  else
    let head := if 1 < pw.nRegions then
        [GLCmd.enable GLCap.stencilTest, GLCmd.stencilOp3 GL_KEEP GL_KEEP GL_ZERO]
      else [GLCmd.enable GLCap.scissorTest]
    head
    ++ texOutputsLoop ps pw stencilBits (runCmds init head) 0
         (List.range ps.contexts.length)
    ++ [if init.stencil then GLCmd.enable GLCap.stencilTest
        else GLCmd.disable GLCap.stencilTest,
        if init.scissorFlag then GLCmd.enable GLCap.scissorTest
        else GLCmd.disable GLCap.scissorTest]

/-! ## Identity colour table (compicc.c:85, 1210-1224, 751-773)

The 64-point identity grid written on a transform-cache miss.  The C loop
iterates `r`, `g`, `b` outermost to innermost, computes
`in[ch] = floor(axis / 63.0 * 65535.0 + 0.5)` and stores the triple at
`clut[b][g][r]` (the `/* BGR */ ` index order documented in the source,
which is exactly the memory order handed to `glTexImage3D` in
`cdCreateTexture`).  The double-precision expression is modelled by its
exact rational value: for `axis < 64` the float error (about `1e-11`) is
far below the `1/126` minimum distance of `axis*65535/63` to a rounding
boundary, so `floor(x + 0.5)` agrees with exact half-up rounding. -/

def GRIDPOINTS : Nat := 64

/-- Exact value of `floor((double) i / (GRIDPOINTS - 1) * 65535.0 + 0.5)`
(compicc.c:1213). -/
def idVal (i : Nat) : Nat :=
  (2 * (i * 65535) + 63) / 126

abbrev ClutTable := Nat → Nat → Nat → Fin 3 → Nat

/-- Overwrite the grid cell `clut[b][g][r]` with the channel triple `v`. -/
def writeClutCell (tbl : ClutTable) (b g r : Nat) (v : Fin 3 → Nat) : ClutTable :=
  fun b2 g2 r2 j => if b2 = b ∧ g2 = g ∧ r2 = r then v j else tbl b2 g2 r2 j

/-- The triple `in[3]` of compicc.c:1210-1218 for axis positions
`(r, g, b)`: `in[0]` from the red axis, `in[1]` from green, `in[2]` from
blue. -/
def identityTriple (r g b : Nat) : Fin 3 → Nat :=
  fun j => if j.1 = 0 then idVal r else if j.1 = 1 then idVal g else idVal b

/-- Innermost loop over `b` (compicc.c:1216-1222). -/
def clutFillB (tbl : ClutTable) (g r : Nat) : ClutTable :=
  (List.range GRIDPOINTS).foldl
    (fun t b => writeClutCell t b g r (identityTriple r g b)) tbl

/-- Middle loop over `g` (compicc.c:1214). -/
def clutFillG (tbl : ClutTable) (r : Nat) : ClutTable :=
  (List.range GRIDPOINTS).foldl (fun t g => clutFillB t g r) tbl

/-- The full identity-initialisation triple loop (compicc.c:1211-1224). -/
def clutIdentityPass (tbl : ClutTable) : ClutTable :=
  (List.range GRIDPOINTS).foldl (fun t r => clutFillG t r) tbl

/-! ## Properties of the stencil-ID allocation -/

theorem regionCountSum_nil : regionCountSum [] = 0 := rfl

theorem regionCountSum_cons (n : Nat) (t : List Nat) :
    regionCountSum (n :: t) = (if 1 < n then n else 0) + regionCountSum t := by
  simp [regionCountSum]

theorem forEachWindowRegionCount_cons (c n : Nat) (t : List Nat) :
    forEachWindowRegionCount c (n :: t)
      = ((if 1 < n then c else 0)
           :: (forEachWindowRegionCount (if 1 < n then c + n else c) t).1,
         (forEachWindowRegionCount (if 1 < n then c + n else c) t).2) := by
  by_cases h : 1 < n <;> simp [forEachWindowRegionCount, addWindowRegionCount, h]

theorem forEachWindowRegionCount_total (ws : List Nat) :
    ∀ c, (forEachWindowRegionCount c ws).2 = c + regionCountSum ws := by
  induction ws with
  | nil => intro c; simp [forEachWindowRegionCount, regionCountSum]
  | cons n t ih =>
    intro c
    rw [forEachWindowRegionCount_cons, regionCountSum_cons]
    dsimp only
    rw [ih]
    by_cases h : 1 < n
    · simp only [if_pos h]
      omega
    · simp only [if_neg h]
      omega

theorem forEachWindowRegionCount_start (ws : List Nat) :
    ∀ c a, a < ws.length →
      (forEachWindowRegionCount c ws).1.getD a 0 =
        if 1 < ws.getD a 0 then c + regionCountSum (ws.take a) else 0 := by
  induction ws with
  | nil => intro c a ha; simp at ha
  | cons n t ih =>
    intro c a ha
    rw [forEachWindowRegionCount_cons]
    cases a with
    | zero =>
      simp only [List.getD_cons_zero, List.take_zero, regionCountSum_nil,
                 Nat.add_zero]
    | succ a =>
      have ha2 : a < t.length := by simpa using ha
      simp only [List.getD_cons_succ, List.take_succ_cons, regionCountSum_cons]
      rw [ih _ a ha2]
      by_cases h : 1 < n
      · simp only [if_pos h]
        split <;> omega
      · simp only [if_neg h]
        split <;> omega

theorem regionCountSum_append (l1 l2 : List Nat) :
    regionCountSum (l1 ++ l2) = regionCountSum l1 + regionCountSum l2 := by
  simp [regionCountSum]

theorem regionCountSum_take_le (ws : List Nat) (k : Nat) :
    regionCountSum (ws.take k) ≤ regionCountSum ws := by
  conv_rhs => rw [← List.take_append_drop k ws]
  rw [regionCountSum_append]
  omega

theorem regionCountSum_take_mono (ws : List Nat) {a b : Nat} (h : a ≤ b) :
    regionCountSum (ws.take a) ≤ regionCountSum (ws.take b) := by
  have h1 : (ws.take b).take a = ws.take a := by
    rw [List.take_take]
    congr 1
    omega
  calc regionCountSum (ws.take a) = regionCountSum ((ws.take b).take a) := by rw [h1]
    _ ≤ regionCountSum (ws.take b) := regionCountSum_take_le _ _

theorem regionCountSum_take_succ (ws : List Nat) (a : Nat) (ha : a < ws.length) :
    regionCountSum (ws.take (a + 1)) =
      regionCountSum (ws.take a) + (if 1 < ws.getD a 0 then ws.getD a 0 else 0) := by
  induction ws generalizing a with
  | nil => simp at ha
  | cons n t ih =>
    cases a with
    | zero => simp [regionCountSum_cons, regionCountSum]
    | succ a =>
      have := ih a (by simpa using ha)
      simp [List.take_succ_cons, regionCountSum_cons, List.getD_cons_succ, this]
      omega

theorem start_interval (ws : List Nat) {a b : Nat} (hab : a < b) (hb : b ≤ ws.length)
    (hHa : 1 < ws.getD a 0) :
    regionCountSum (ws.take a) + ws.getD a 0 ≤ regionCountSum (ws.take b) := by
  have ha : a < ws.length := lt_of_lt_of_le hab hb
  have h1 := regionCountSum_take_succ ws a ha
  rw [if_pos hHa] at h1
  have h2 := regionCountSum_take_mono ws (show a + 1 ≤ b from hab)
  omega

theorem start_bound (ws : List Nat) {a : Nat} (ha : a < ws.length)
    (hHa : 1 < ws.getD a 0) :
    regionCountSum (ws.take a) + ws.getD a 0 ≤ regionCountSum ws := by
  have h1 := regionCountSum_take_succ ws a ha
  rw [if_pos hHa] at h1
  have h2 := regionCountSum_take_le ws (a + 1)
  omega

theorem mul_add_inj {T o1 o2 x y : Nat} (hx : x < T) (hy : y < T)
    (h : T * o1 + x = T * o2 + y) : o1 = o2 ∧ x = y := by
  have hT : 0 < T := by omega
  have h1 : (T * o1 + x) / T = o1 := by
    simp [Nat.mul_add_div hT, Nat.div_eq_of_lt hx]
  have h2 : (T * o2 + y) / T = o2 := by
    simp [Nat.mul_add_div hT, Nat.div_eq_of_lt hy]
  have ho : o1 = o2 := by rw [← h1, h, h2]
  subst ho
  exact ⟨rfl, by omega⟩

/-- Claim C1 counterexample: on a screen with two windows of two regions
each and two outputs, the ID the code assigns to window 1, region 0,
output 1 is `1 + total*output + start + region = 7`, while the claimed
formula `1 + screenTotalSoFar + region*outputCount + output` gives 4. -/
theorem C1_counterexample :
    STENCIL_ID (forEachWindowRegionCount 0 [2, 2]).2 1
        ((forEachWindowRegionCount 0 [2, 2]).1.getD 1 0) 0
      ≠ idFor_spec ((forEachWindowRegionCount 0 [2, 2]).1.getD 1 0) 0 1 2 := by
  decide

/-- Claim C1 (amended): for every window `a` with more than one region, the
stencil ID assigned to (window `a`, region `j`, output `i`) after one
region-count accumulation pass equals
`1 + totalRegionCount * i + screenTotalSoFar(a) + j`, where
`screenTotalSoFar(a)` is the running total of the region counts of the
windows preceding `a` in stack order that themselves have more than one
region, and `totalRegionCount` is that total over all windows. -/
theorem C1_stencil_id_closed_form (ws : List Nat) (a i j : Nat)
    (ha : a < ws.length) (hHa : 1 < ws.getD a 0) :
    STENCIL_ID (forEachWindowRegionCount 0 ws).2 i
        ((forEachWindowRegionCount 0 ws).1.getD a 0) j
      = 1 + regionCountSum ws * i + regionCountSum (ws.take a) + j := by
  rw [forEachWindowRegionCount_total ws 0,
      forEachWindowRegionCount_start ws 0 a ha, if_pos hHa]
  simp [STENCIL_ID]

/-- Witness for C1: the amended formula evaluated for the screen `[2, 3]`
at window 1, output 1, region 2. -/
theorem C1_witness :
    STENCIL_ID (forEachWindowRegionCount 0 [2, 3]).2 1
        ((forEachWindowRegionCount 0 [2, 3]).1.getD 1 0) 2
      = 1 + regionCountSum [2, 3] * 1 + regionCountSum ([2, 3].take 1) + 2 :=
  C1_stencil_id_closed_form [2, 3] 1 1 2 (by decide) (by decide)

/-- Claim C2: within one reindex epoch (one run of the region-count
accumulation), the stencil IDs of two distinct alive triples
(window, region, output) — windows with `HAS_REGIONS`, region index below
the window's count, output index below the output count — are distinct, and
every assigned ID is at least 1. -/
theorem C2_stencil_ids_injective (ws : List Nat) (O a b ra rb oa ob : Nat)
    (ha : a < ws.length) (hb : b < ws.length)
    (hHa : 1 < ws.getD a 0) (hHb : 1 < ws.getD b 0)
    (hra : ra < ws.getD a 0) (hrb : rb < ws.getD b 0)
    (_hoa : oa < O) (_hob : ob < O)
    (hne : ¬(a = b ∧ ra = rb ∧ oa = ob)) :
    STENCIL_ID (forEachWindowRegionCount 0 ws).2 oa
        ((forEachWindowRegionCount 0 ws).1.getD a 0) ra
      ≠ STENCIL_ID (forEachWindowRegionCount 0 ws).2 ob
        ((forEachWindowRegionCount 0 ws).1.getD b 0) rb ∧
    1 ≤ STENCIL_ID (forEachWindowRegionCount 0 ws).2 oa
        ((forEachWindowRegionCount 0 ws).1.getD a 0) ra := by
  constructor
  · rw [forEachWindowRegionCount_total ws 0,
        forEachWindowRegionCount_start ws 0 a ha, if_pos hHa,
        forEachWindowRegionCount_start ws 0 b hb, if_pos hHb]
    simp only [STENCIL_ID, Nat.zero_add]
    intro heq
    have hxa : regionCountSum (ws.take a) + ra < regionCountSum ws := by
      have := start_bound ws ha hHa
      omega
    have hxb : regionCountSum (ws.take b) + rb < regionCountSum ws := by
      have := start_bound ws hb hHb
      omega
    have key : regionCountSum ws * oa + (regionCountSum (ws.take a) + ra)
        = regionCountSum ws * ob + (regionCountSum (ws.take b) + rb) := by omega
    obtain ⟨ho, hx⟩ := mul_add_inj hxa hxb key
    rcases Nat.lt_trichotomy a b with hab | hab | hab
    · have := start_interval ws hab (le_of_lt hb) hHa
      omega
    · subst hab
      exact hne ⟨rfl, by omega, ho⟩
    · have := start_interval ws hab (le_of_lt ha) hHb
      omega
  · simp only [STENCIL_ID]
    omega

/-- Witness for C2: two distinct alive triples on the screen `[2, 3]` with
two outputs receive distinct IDs, and the first ID is at least 1. -/
theorem C2_witness :
    (STENCIL_ID (forEachWindowRegionCount 0 [2, 3]).2 0
        ((forEachWindowRegionCount 0 [2, 3]).1.getD 0 0) 1
      ≠ STENCIL_ID (forEachWindowRegionCount 0 [2, 3]).2 1
        ((forEachWindowRegionCount 0 [2, 3]).1.getD 1 0) 2) ∧
    1 ≤ STENCIL_ID (forEachWindowRegionCount 0 [2, 3]).2 0
        ((forEachWindowRegionCount 0 [2, 3]).1.getD 0 0) 1 :=
  C2_stencil_ids_injective [2, 3] 2 0 1 1 2 0 1 (by decide) (by decide)
    (by decide) (by decide) (by decide) (by decide) (by decide) (by decide)
    (by decide)

/-! ## Profile store behaviour -/

/-- Claim C3 evidence: with hash 5 cached as profile 7, processing a
`COLOR_PROFILES` record for hash 5 whose length field is zero leaves the
store unchanged, and a subsequent `profileFromMD5` lookup still returns
profile 7 — the record-loop of `updateScreenProfiles` has no deletion
branch for `length == 0`, contradicting the in-source comment
(compicc.c:528) and the protocol contract. -/
theorem C3_zero_length_record_keeps_entry :
    updateScreenProfiles [(5, 7)]
        [{ md5 := 5, length := 0, parses := true, profile := 9 }] = [(5, 7)] ∧
    profileFromMD5 (updateScreenProfiles [(5, 7)]
        [{ md5 := 5, length := 0, parses := true, profile := 9 }]) 5 = some 7 := by
  decide

/-! ## Heartbeat ownership negotiation -/

/-- Claim C4 counterexample: a foreign record whose renewal time (100) is
more than 60 units older than the current time (200) but newer than this
process's last observation (0, a fresh start) makes the service defer, not
take over — the 60-unit staleness check at compicc.c:2163 only logs a
warning. -/
theorem C4_counterexample :
    ownershipAction 0
        { dataPresent := true, oldPid := 111, pid := 222, atomTime := 100,
          serverName := "otherserver", request := 0, cutime := 200 }
      ≠ HbAction.takeover ∧
    (100 : Int) + 60 < 200 ∧
    ownershipAction 0
        { dataPresent := true, oldPid := 111, pid := 222, atomTime := 100,
          serverName := "otherserver", request := 0, cutime := 200 }
      = HbAction.defer := by
  decide

/-- Claim C4 (amended): for a heartbeat record from a different process
with a different service name, the service takes over when the record's
renewal timestamp is older than this process's last observation time (the
actual staleness test; the fixed 60-unit threshold only produces a log
warning), and it defers — stops correcting colours — when the record is
fresher than the last observation, unless the foreign service is
`kolorserver` or this is an init request (which instead force takeover). -/
theorem C4_ownership_rules (lastTime : Int) (o : HbObservation)
    (hdata : o.dataPresent = true) (hpid : o.oldPid ≠ o.pid)
    (hname : o.serverName ≠ "compicc") :
    (o.atomTime < lastTime → ownershipAction lastTime o = HbAction.takeover) ∧
    (lastTime < o.atomTime → o.serverName ≠ "kolorserver" → o.request ≠ 2 →
      ownershipAction lastTime o = HbAction.defer) := by
  constructor
  · intro hlt
    rw [ownershipAction, if_pos ⟨hdata, hpid⟩, if_pos hname, if_pos (Or.inl hlt)]
  · intro hgt hks hreq
    rw [ownershipAction, if_pos ⟨hdata, hpid⟩, if_pos hname,
        if_neg (by push_neg; exact ⟨le_of_lt hgt, hks, hreq⟩),
        if_pos hgt]

/-- Witness for C4: a record 5 units older than the last observation from a
foreign server triggers takeover. -/
theorem C4_witness :
    ownershipAction 10
        { dataPresent := true, oldPid := 1, pid := 2, atomTime := 5,
          serverName := "otherserver", request := 0, cutime := 100 }
      = HbAction.takeover :=
  (C4_ownership_rules 10
      { dataPresent := true, oldPid := 1, pid := 2, atomTime := 5,
        serverName := "otherserver", request := 0, cutime := 100 }
      rfl (by decide) (by decide)).1 (by decide)

/-! ## Zero-stencil-bits degradation -/

/-- Claim C5 counterexample: with zero stencil bits and a two-region window
whose explicit region 0 carries context `⟨3⟩`, the texture pass drops the
context of the implicit remainder (index 1) and keeps the explicit region's
context — the opposite of "only the implicit remainder remains
color-correctable". -/
theorem C5_counterexample :
    ¬(selectContext 0
        { nRegions := 2, stencil_id_start := 0, active := 1,
          regions := [{ cc := some [{ glTexture := 3 }] }, { cc := none }],
          invisible := false, emptyInter := fun _ _ => false }
        { glTexture := 1 } 0 1 ≠ none ∧
      selectContext 0
        { nRegions := 2, stencil_id_start := 0, active := 1,
          regions := [{ cc := some [{ glTexture := 3 }] }, { cc := none }],
          invisible := false, emptyInter := fun _ _ => false }
        { glTexture := 1 } 0 0 = none) := by
  decide

/-- Claim C5 (amended): when the GPU reports zero stencil bits, for every
window with more than one region the implicit remainder's colour context is
set to null (so its corrected draw is skipped) while the explicit regions
keep their own per-output contexts, and the published heartbeat capability
tokens omit the per-region-profile capability `ICP`. -/
theorem C5_zero_stencil_degradation (pw : PrivWindowM) (dflt : PrivColorContextM)
    (i j : Nat) (hmulti : 1 < pw.nRegions) :
    selectContext 0 pw dflt i (pw.nRegions - 1) = none ∧
    (j < pw.nRegions - 1 →
      selectContext 0 pw dflt i j
        = (pw.regions[j]?.bind fun rr => rr.cc).bind fun cl => cl[i]?) ∧
    ∀ transform_n, "ICP" ∉ capabilityTokens transform_n 0 := by
  refine ⟨?_, ?_, ?_⟩
  · simp [selectContext, hmulti]
  · intro hj
    simp [selectContext, Nat.ne_of_lt hj]
  · intro transform_n
    unfold capabilityTokens
    split
    · simp
    · simp

/-- Witness for C5: the amended statement at the concrete two-region window
of the counterexample, projected to the remainder being disabled and `ICP`
being absent with one transform. -/
theorem C5_witness :
    selectContext 0
        { nRegions := 2, stencil_id_start := 0, active := 1,
          regions := [{ cc := some [{ glTexture := 3 }] }, { cc := none }],
          invisible := false, emptyInter := fun _ _ => false }
        { glTexture := 1 } 0 (2 - 1) = none ∧
    "ICP" ∉ capabilityTokens 1 0 := by
  refine ⟨?_, ?_⟩
  · exact (C5_zero_stencil_degradation
      { nRegions := 2, stencil_id_start := 0, active := 1,
        regions := [{ cc := some [{ glTexture := 3 }] }, { cc := none }],
        invisible := false, emptyInter := fun _ _ => false }
      { glTexture := 1 } 0 0 (by decide)).1
  · exact (C5_zero_stencil_degradation
      { nRegions := 2, stencil_id_start := 0, active := 1,
        regions := [{ cc := some [{ glTexture := 3 }] }, { cc := none }],
        invisible := false, emptyInter := fun _ _ => false }
      { glTexture := 1 } 0 0 (by decide)).2.2 1

/-! ## Window region partition -/

theorem xSubtract_foldl (recs : List XcolorRegionRec) :
    ∀ (acc : RegionPts) (p : Int × Int),
      (recs.foldl (fun wr rr => xSubtractRegion wr rr.region) acc) p
        = (acc p && !(recs.any fun rr => rr.region p)) := by
  induction recs with
  | nil => intro acc p; simp
  | cons r t ih =>
    intro acc p
    simp only [List.foldl_cons, List.any_cons, ih, xSubtractRegion, Bool.not_or]
    cases acc p <;> cases r.region p <;> simp

theorem getD_append_singleton (l : List α) (x d : α) :
    (l ++ [x]).getD l.length d = x := by
  induction l with
  | nil => rfl
  | cons a t ih => simp only [List.cons_append, List.length_cons,
      List.getD_cons_succ, ih]

theorem any_map_region (recs : List XcolorRegionRec) (p : Int × Int) :
    ((recs.map fun rr => rr.region).any fun reg => reg p)
      = recs.any fun rr => rr.region p := by
  induction recs with
  | nil => rfl
  | cons r t ih => simp [List.any_cons, ih]

/-- Claim C6 counterexample: a client region lying outside the window
rectangle (window 4×4, region the unit square at (10,10)) makes the union
of the stored entries strictly larger than the window rectangle: the point
(10,10) is covered by the stored list but not by the window. -/
theorem C6_counterexample :
    regionListUnion
        (updateWindowRegionsM 4 4
          [{ region := inRect { x := 10, y := 10, width := 1, height := 1 },
             md5zero := true }]) (10, 10) = true ∧
    windowRegion 4 4 (10, 10) = false := by
  decide

/-- Claim C6 (amended): after a region update the stored list is exactly
the parsed explicit regions followed by one final implicit remainder; the
remainder equals the full window rectangle minus every explicit region, it
is disjoint from every explicit region, and the union of all entries equals
the full window rectangle united with the explicit regions — so it equals
exactly the window rectangle only when every explicit region lies inside
the window, and explicit regions may overlap one another. -/
theorem C6_region_partition (serverWidth serverHeight : Int)
    (recs : List XcolorRegionRec) (p : Int × Int) :
    (updateWindowRegionsM serverWidth serverHeight recs).take recs.length
        = recs.map (fun rr => rr.region) ∧
    (updateWindowRegionsM serverWidth serverHeight recs).length
        = recs.length + 1 ∧
    (updateWindowRegionsM serverWidth serverHeight recs).getD recs.length
        (fun _ => false) p
      = (windowRegion serverWidth serverHeight p
          && !(recs.any fun rr => rr.region p)) ∧
    ((updateWindowRegionsM serverWidth serverHeight recs).getD recs.length
        (fun _ => false) p
      && (recs.any fun rr => rr.region p)) = false ∧
    regionListUnion (updateWindowRegionsM serverWidth serverHeight recs) p
      = (windowRegion serverWidth serverHeight p
          || recs.any fun rr => rr.region p) := by
  have hrem : (updateWindowRegionsM serverWidth serverHeight recs).getD recs.length
      (fun _ => false) p
      = (windowRegion serverWidth serverHeight p
          && !(recs.any fun rr => rr.region p)) := by
    unfold updateWindowRegionsM
    rw [show recs.length = (recs.map fun rr => rr.region).length by simp,
        getD_append_singleton]
    exact xSubtract_foldl recs _ p
  refine ⟨?_, ?_, hrem, ?_, ?_⟩
  · unfold updateWindowRegionsM
    rw [show recs.length = (recs.map fun rr => rr.region).length by simp,
        List.take_left]
  · simp [updateWindowRegionsM]
  · rw [hrem]
    cases windowRegion serverWidth serverHeight p <;>
      cases recs.any fun rr => rr.region p <;> simp
  · unfold regionListUnion updateWindowRegionsM
    rw [List.any_append]
    have h1 := any_map_region recs p
    have h2 : ([recs.foldl (fun wr rr => xSubtractRegion wr rr.region)
        (windowRegion serverWidth serverHeight)].any fun reg => reg p)
        = (windowRegion serverWidth serverHeight p
            && !(recs.any fun rr => rr.region p)) := by
      simp [xSubtract_foldl recs _ p]
    rw [h1, h2]
    cases windowRegion serverWidth serverHeight p <;>
      cases recs.any fun rr => rr.region p <;> simp

/-! ## Draw-pass state discipline and routing -/

theorem runCmds_nil (s : GLState) : runCmds s [] = s := rfl

theorem runCmds_cons (s : GLState) (c : GLCmd) (l : List GLCmd) :
    runCmds s (c :: l) = runCmds (applyCmd s c) l := rfl

theorem runCmds_append (s : GLState) (l1 l2 : List GLCmd) :
    runCmds s (l1 ++ l2) = runCmds (runCmds s l1) l2 := by
  simp [runCmds, List.foldl_append]

theorem mem_listJoinMap {f : α → List β} {l : List α} {b : β} :
    b ∈ listJoinMap f l ↔ ∃ a, a ∈ l ∧ b ∈ f a := by
  induction l with
  | nil => simp [listJoinMap]
  | cons x t ih =>
    simp only [listJoinMap, List.mem_append, ih, List.mem_cons]
    constructor
    · rintro (hb | ⟨a, ha, hb⟩)
      · exact ⟨x, Or.inl rfl, hb⟩
      · exact ⟨a, Or.inr ha, hb⟩
    · rintro ⟨a, (rfl | ha), hb⟩
      · exact Or.inl hb
      · exact Or.inr ⟨a, ha, hb⟩

theorem applyCmd_scissorFlag (s : GLState) (c : GLCmd)
    (h1 : c ≠ GLCmd.enable GLCap.scissorTest)
    (h2 : c ≠ GLCmd.disable GLCap.scissorTest) :
    (applyCmd s c).scissorFlag = s.scissorFlag := by
  cases c with
  | enable cap =>
    cases cap
    · rfl
    · exact absurd rfl h1
    · rfl
  | disable cap =>
    cases cap
    · rfl
    · exact absurd rfl h2
    · rfl
  | stencilOp3 a b c => rfl
  | stencilFunc f r => rfl
  | colorMask b => rfl
  | scissor b => rfl
  | drawGeometry => rfl
  | setParams => rfl
  | bindTexture3D t => rfl
  | drawTexture b => rfl

theorem runCmds_scissorFlag (l : List GLCmd) : ∀ s : GLState,
    (∀ c ∈ l, c ≠ GLCmd.enable GLCap.scissorTest ∧
       c ≠ GLCmd.disable GLCap.scissorTest) →
    (runCmds s l).scissorFlag = s.scissorFlag := by
  induction l with
  | nil => intro s _; rfl
  | cons c t ih =>
    intro s h
    rw [runCmds_cons, ih _ fun d hd => h d (List.mem_cons_of_mem _ hd)]
    exact applyCmd_scissorFlag s c (h c (List.mem_cons_self _ _)).1
      (h c (List.mem_cons_self _ _)).2

theorem drawWindowStencilPass_no_scissor_cmd (init : GLState) (ps : PrivScreenM)
    (pw : PrivWindowM) :
    ∀ c ∈ drawWindowStencilPass init ps pw,
      c ≠ GLCmd.enable GLCap.scissorTest ∧ c ≠ GLCmd.disable GLCap.scissorTest := by
  intro c hc
  unfold drawWindowStencilPass at hc
  split at hc
  · simp only [List.mem_append, List.mem_cons, List.not_mem_nil, or_false,
               mem_listJoinMap] at hc
    rcases hc with ((rfl | rfl | rfl) | ⟨j, _, hj⟩) | rfl | rfl
    · exact ⟨by simp, by simp⟩
    · exact ⟨by simp, by simp⟩
    · exact ⟨by simp, by simp⟩
    · obtain ⟨i, _, hi⟩ := hj
      rcases hi with rfl | hi2
      · exact ⟨by simp, by simp⟩
      · split at hi2
        · simp at hi2
        · simp only [List.mem_singleton] at hi2
          subst hi2
          exact ⟨by simp, by simp⟩
    · exact ⟨by simp, by simp⟩
    · split <;> exact ⟨by simp, by simp⟩
  · simp at hc

theorem texRegionCmds_shape (ps : PrivScreenM) (pw : PrivWindowM)
    (stencilBits i j : Nat) :
    ∀ c ∈ texRegionCmds ps pw stencilBits i j,
      c ≠ GLCmd.enable GLCap.stencilTest ∧ c ≠ GLCmd.disable GLCap.stencilTest ∧
      c ≠ GLCmd.enable GLCap.scissorTest ∧ c ≠ GLCmd.disable GLCap.scissorTest := by
  intro c hc
  unfold texRegionCmds at hc
  split at hc
  · simp only [List.mem_singleton] at hc
    subst hc
    exact ⟨by simp, by simp, by simp, by simp⟩
  · rename_i ctx _
    split at hc
    · simp only [List.mem_singleton] at hc
      subst hc
      exact ⟨by simp, by simp, by simp, by simp⟩
    · by_cases hg : ctx.glTexture ≠ 0
      · rw [if_pos hg, if_pos hg] at hc
        simp only [List.mem_cons, List.mem_append, List.mem_singleton,
                   List.not_mem_nil, or_false] at hc
        rcases hc with rfl | rfl | ((rfl | rfl) | rfl) | (rfl | rfl) <;>
          exact ⟨by simp, by simp, by simp, by simp⟩
      · rw [if_neg hg, if_neg hg] at hc
        simp only [List.mem_cons, List.mem_append, List.mem_singleton,
                   List.nil_append, List.append_nil, List.not_mem_nil,
                   or_false] at hc
        rcases hc with rfl | rfl | rfl <;>
          exact ⟨by simp, by simp, by simp, by simp⟩

theorem texRegionsFrom_shape (ps : PrivScreenM) (pw : PrivWindowM)
    (stencilBits i j0 : Nat) :
    ∀ c ∈ texRegionsFrom ps pw stencilBits i j0,
      c ≠ GLCmd.enable GLCap.stencilTest ∧ c ≠ GLCmd.disable GLCap.stencilTest ∧
      c ≠ GLCmd.enable GLCap.scissorTest ∧ c ≠ GLCmd.disable GLCap.scissorTest := by
  intro c hc
  unfold texRegionsFrom at hc
  rw [mem_listJoinMap] at hc
  obtain ⟨k, _, hk⟩ := hc
  exact texRegionCmds_shape ps pw stencilBits i (j0 + k) c hk

theorem texOutputCmds_shape (ps : PrivScreenM) (pw : PrivWindowM)
    (stencilBits : Nat) (box : Int × Int × Int × Int) (i jIn : Nat) :
    ∀ c ∈ (texOutputCmds ps pw stencilBits box i jIn).1,
      c ≠ GLCmd.enable GLCap.stencilTest ∧ c ≠ GLCmd.disable GLCap.stencilTest ∧
      c ≠ GLCmd.enable GLCap.scissorTest ∧ c ≠ GLCmd.disable GLCap.scissorTest := by
  intro c hc
  unfold texOutputCmds at hc
  simp only [List.mem_append] at hc
  rcases hc with (hpre | hbody) | hpost
  · split at hpre
    · simp only [List.mem_singleton] at hpre
      subst hpre
      exact ⟨by simp, by simp, by simp, by simp⟩
    · simp at hpre
  · split at hbody
    · exact texRegionsFrom_shape ps pw stencilBits i _ c hbody
    · exact texRegionsFrom_shape ps pw stencilBits i _ c hbody
  · split at hpost
    · simp only [List.mem_singleton] at hpost
      subst hpost
      exact ⟨by simp, by simp, by simp, by simp⟩
    · simp at hpost

theorem texOutputsLoop_shape (ps : PrivScreenM) (pw : PrivWindowM)
    (stencilBits : Nat) :
    ∀ (idxs : List Nat) (s : GLState) (j : Nat),
      ∀ c ∈ texOutputsLoop ps pw stencilBits s j idxs,
        c ≠ GLCmd.enable GLCap.stencilTest ∧ c ≠ GLCmd.disable GLCap.stencilTest ∧
        c ≠ GLCmd.enable GLCap.scissorTest ∧ c ≠ GLCmd.disable GLCap.scissorTest := by
  intro idxs
  induction idxs with
  | nil => intro s j c hc; simp [texOutputsLoop] at hc
  | cons i rest ih =>
    intro s j c hc
    rw [texOutputsLoop] at hc
    rcases List.mem_append.mp hc with hc1 | hc2
    · exact texOutputCmds_shape ps pw stencilBits s.scissorBox i j c hc1
    · exact ih _ _ c hc2

theorem texOutputsLoop_scissor_mem (ps : PrivScreenM) (pw : PrivWindowM)
    (stencilBits : Nat) (hlen : 1 < ps.contexts.length) :
    ∀ (idxs : List Nat) (s : GLState) (j i : Nat), i ∈ idxs →
      GLCmd.scissor (scissorRectFor ps.height ((ps.contexts.getD i defaultOutput).xRect))
        ∈ texOutputsLoop ps pw stencilBits s j idxs := by
  intro idxs
  induction idxs with
  | nil => intro s j i hi; simp at hi
  | cons i2 rest ih =>
    intro s j i hi
    rw [texOutputsLoop]
    rcases List.mem_cons.mp hi with rfl | hi2
    · apply List.mem_append_left
      unfold texOutputCmds
      simp [if_pos hlen]
    · exact List.mem_append_right _ (ih _ _ _ hi2)

/-- Claim C9: for every initial GL state, both the stencil-fill pass and the
texture pass leave the stencil-test and scissor-test enable flags exactly
as they found them — whether those tests started enabled or disabled. -/
theorem C9_enable_state_restored (init : GLState) (ps : PrivScreenM)
    (pw : PrivWindowM) (stencilBits : Nat) :
    ((runCmds init (drawWindowStencilPass init ps pw)).stencil = init.stencil ∧
     (runCmds init (drawWindowStencilPass init ps pw)).scissorFlag
        = init.scissorFlag) ∧
    ((runCmds init (drawWindowTexturePass init ps pw stencilBits)).stencil
        = init.stencil ∧
     (runCmds init (drawWindowTexturePass init ps pw stencilBits)).scissorFlag
        = init.scissorFlag) := by
  refine ⟨⟨?_, ?_⟩, ?_⟩
  · unfold drawWindowStencilPass
    split
    · rw [runCmds_append, runCmds_append, runCmds_cons, runCmds_cons, runCmds_nil]
      cases hst : init.stencil <;>
        simp [applyCmd]
    · rfl
  · exact runCmds_scissorFlag _ init
      (drawWindowStencilPass_no_scissor_cmd init ps pw)
  · unfold drawWindowTexturePass
    split
    · exact ⟨rfl, rfl⟩
    · rw [runCmds_append, runCmds_append, runCmds_cons, runCmds_cons, runCmds_nil]
      constructor
      · cases hst : init.stencil <;> cases hsc : init.scissorFlag <;>
          simp [applyCmd]
      · cases hst : init.stencil <;> cases hsc : init.scissorFlag <;>
          simp [applyCmd]

/-- Claim C7 counterexample: on a single-output screen, the texture pass of
a remainder-only window enables the scissor test but never issues a
`glScissor` call at all — in particular not for the output's rectangle —
because the scissor box is set only when the screen has more than one
output (compicc.c:1945). -/
theorem C7_counterexample :
    GLCmd.scissor (scissorRectFor 600 { x := 0, y := 0, width := 800, height := 600 })
      ∉ drawWindowTexturePass
          { stencil := false, scissorFlag := false, scissorBox := (0, 0, 0, 0) }
          { contexts := [{ xRect := { x := 0, y := 0, width := 800, height := 600 },
                           cc := { glTexture := 4 } }],
            height := 600, regionCountTotal := 3 }
          { nRegions := 1, stencil_id_start := 0, active := 1,
            regions := [{ cc := none }], invisible := false,
            emptyInter := fun _ _ => false } 8 ∧
    ({ contexts := [{ xRect := { x := 0, y := 0, width := 800, height := 600 },
                      cc := { glTexture := 4 } }],
       height := 600, regionCountTotal := 3 } : PrivScreenM).contexts.length = 1 := by
  decide

/-- Claim C7 (amended): for a window whose region list holds only the
implicit remainder (`nRegions = 1`), the stencil-fill pass emits no GL
command at all, and the texture pass enables the scissor test and — when
the stencil test started disabled — never enables the stencil test; the
scissor box is set to each output's rectangle (in GL window coordinates)
only when the screen has more than one output. -/
theorem drawWindowTexturePass_one_region (init : GLState) (ps : PrivScreenM)
    (pw : PrivWindowM) (stencilBits : Nat) (hact : pw.active ≠ 0)
    (hone : pw.nRegions = 1) :
    drawWindowTexturePass init ps pw stencilBits
      = [GLCmd.enable GLCap.scissorTest]
        ++ texOutputsLoop ps pw stencilBits
             (runCmds init [GLCmd.enable GLCap.scissorTest]) 0
             (List.range ps.contexts.length)
        ++ [if init.stencil then GLCmd.enable GLCap.stencilTest
            else GLCmd.disable GLCap.stencilTest,
            if init.scissorFlag then GLCmd.enable GLCap.scissorTest
            else GLCmd.disable GLCap.scissorTest] := by
  unfold drawWindowTexturePass
  rw [if_neg hact, hone]
  norm_num

theorem C7_remainder_scissor_routing (init : GLState) (ps : PrivScreenM)
    (pw : PrivWindowM) (stencilBits : Nat)
    (hone : pw.nRegions = 1) (hact : pw.active ≠ 0) (hst : init.stencil = false) :
    drawWindowStencilPass init ps pw = [] ∧
    GLCmd.enable GLCap.scissorTest ∈ drawWindowTexturePass init ps pw stencilBits ∧
    GLCmd.enable GLCap.stencilTest ∉ drawWindowTexturePass init ps pw stencilBits ∧
    (1 < ps.contexts.length → ∀ i, i < ps.contexts.length →
      GLCmd.scissor (scissorRectFor ps.height
          ((ps.contexts.getD i defaultOutput).xRect))
        ∈ drawWindowTexturePass init ps pw stencilBits) := by
  refine ⟨?_, ?_, ?_, ?_⟩
  · simp [drawWindowStencilPass, hone]
  · rw [drawWindowTexturePass_one_region init ps pw stencilBits hact hone]
    exact List.mem_append_left _ (List.mem_append_left _ (by simp))
  · intro hmem
    rw [drawWindowTexturePass_one_region init ps pw stencilBits hact hone] at hmem
    rcases List.mem_append.mp hmem with hmem2 | ht
    · rcases List.mem_append.mp hmem2 with hh | hl
      · simp at hh
      · exact (texOutputsLoop_shape ps pw stencilBits _ _ _ _ hl).1 rfl
    · simp only [List.mem_cons, List.mem_singleton, List.not_mem_nil,
                 or_false] at ht
      rcases ht with ht | ht
      · simp [hst] at ht
      · cases hsc : init.scissorFlag <;> simp [hsc] at ht
  · intro hlen i hi
    rw [drawWindowTexturePass_one_region init ps pw stencilBits hact hone]
    apply List.mem_append_left
    apply List.mem_append_right
    exact texOutputsLoop_scissor_mem ps pw stencilBits hlen _ _ _ i
      (List.mem_range.mpr hi)

/-- Witness for C7: on a two-output screen the texture pass of a
remainder-only window sets the scissor box to output 0's rectangle. -/
theorem C7_witness :
    GLCmd.scissor (scissorRectFor 600 { x := 0, y := 0, width := 400, height := 600 })
      ∈ drawWindowTexturePass
          { stencil := false, scissorFlag := false, scissorBox := (0, 0, 0, 0) }
          { contexts := [{ xRect := { x := 0, y := 0, width := 400, height := 600 },
                           cc := { glTexture := 4 } },
                         { xRect := { x := 400, y := 0, width := 400, height := 600 },
                           cc := { glTexture := 6 } }],
            height := 600, regionCountTotal := 3 }
          { nRegions := 1, stencil_id_start := 0, active := 1,
            regions := [{ cc := none }], invisible := false,
            emptyInter := fun _ _ => false } 8 :=
  (C7_remainder_scissor_routing
      { stencil := false, scissorFlag := false, scissorBox := (0, 0, 0, 0) }
      { contexts := [{ xRect := { x := 0, y := 0, width := 400, height := 600 },
                       cc := { glTexture := 4 } },
                     { xRect := { x := 400, y := 0, width := 400, height := 600 },
                       cc := { glTexture := 6 } }],
        height := 600, regionCountTotal := 3 }
      { nRegions := 1, stencil_id_start := 0, active := 1,
        regions := [{ cc := none }], invisible := false,
        emptyInter := fun _ _ => false } 8 rfl (by decide) rfl).2.2.2
    (by decide) 0 (by decide)

/-! ## Deactivation latch -/

/-- Claim C10 counterexample: after deactivation has deleted every
per-output texture (all zero here), the texture pass still emits a
colour-corrected draw for a window with an explicit region whose own
per-region texture survived — neither draw pass consults the global active
flag. -/
theorem C10_counterexample :
    GLCmd.drawTexture true ∈
      drawWindowTexturePass
        { stencil := false, scissorFlag := false, scissorBox := (0, 0, 0, 0) }
        { contexts := [{ xRect := { x := 0, y := 0, width := 800, height := 600 },
                         cc := { glTexture := 0 } }],
          height := 600, regionCountTotal := 2 }
        { nRegions := 2, stencil_id_start := 0, active := 1,
          regions := [{ cc := some [{ glTexture := 5 }] }, { cc := none }],
          invisible := false, emptyInter := fun _ _ => false } 8 ∧
    ([{ xRect := { x := 0, y := 0, width := 800, height := 600 },
        cc := { glTexture := 0 } }] : List PrivColorOutputM).all
      (fun o => o.cc.glTexture == 0) = true := by
  decide

/-- Claim C10 (amended): once `colour_desktop_can` is cleared it is never
set again by the heartbeat update; a heartbeat update in the deactivated
state returns 1 immediately without touching anything; event handling
dispatches nothing when deactivated; and whenever an update deactivates the
service, every per-output GPU texture is deleted.  (Per-window region
textures are not deleted and the draw passes do not consult the flag, so
explicit-region corrected drawing can still occur — see the
counterexample.) -/
theorem C10_deactivation_latch (s : HbState) (o : HbObservation)
    (attachedProfiles : Nat) (e : CiccEvent) :
    ((updateIccColorDesktopAtomM s o attachedProfiles).1.can = true →
       s.can = true) ∧
    (s.can = false → updateIccColorDesktopAtomM s o attachedProfiles = (s, 1)) ∧
    pluginHandleEventActions false e = [] ∧
    (s.can = true →
      (updateIccColorDesktopAtomM s o attachedProfiles).1.can = false →
      ∀ t ∈ (updateIccColorDesktopAtomM s o attachedProfiles).1.outputTex,
        t = 0) := by
  refine ⟨?_, ?_, ?_, ?_⟩
  · intro h
    by_cases hcan : s.can = false
    · rw [updateIccColorDesktopAtomM, if_pos hcan] at h
      exact h
    · cases hb : s.can
      · exact absurd hb hcan
      · rfl
  · intro hcan
    rw [updateIccColorDesktopAtomM, if_pos hcan]
  · rfl
  · intro hcan hres t ht
    rw [updateIccColorDesktopAtomM, if_neg (by simp [hcan])] at hres ht
    dsimp only at hres ht
    rw [if_pos hres] at ht
    simp only [List.mem_map] at ht
    obtain ⟨x, _, hx⟩ := ht
    exact hx.symm

/-- Witness for C10: a deactivated state is returned unchanged with status 1
by the heartbeat update. -/
theorem C10_witness :
    updateIccColorDesktopAtomM { can := false, lastTime := 0, outputTex := [5] }
        { dataPresent := true, oldPid := 1, pid := 2, atomTime := 50,
          serverName := "otherserver", request := 0, cutime := 100 } 1
      = ({ can := false, lastTime := 0, outputTex := [5] }, 1) :=
  (C10_deactivation_latch { can := false, lastTime := 0, outputTex := [5] }
      { dataPresent := true, oldPid := 1, pid := 2, atomTime := 50,
        serverName := "otherserver", request := 0, cutime := 100 } 1
      CiccEvent.otherEvent).2.1 rfl

/-! ## Identity colour table -/

theorem clutFillB_list (g r : Nat) :
    ∀ (l : List Nat) (t : ClutTable) (b g2 r2 : Nat) (j : Fin 3),
      (l.foldl (fun t b2 => writeClutCell t b2 g r (identityTriple r g b2)) t)
          b g2 r2 j
        = if g2 = g ∧ r2 = r ∧ b ∈ l then identityTriple r g b j
          else t b g2 r2 j := by
  intro l
  induction l with
  | nil => intro t b g2 r2 j; simp
  | cons b3 rest ih =>
    intro t b g2 r2 j
    rw [List.foldl_cons, ih]
    by_cases hg : g2 = g
    · by_cases hr : r2 = r
      · subst hg; subst hr
        by_cases hb : b ∈ rest
        · simp [hb]
        · by_cases hbb : b = b3
          · subst hbb
            simp [hb, writeClutCell]
          · simp [List.mem_cons, hb, hbb, writeClutCell]
      · simp [hr, writeClutCell]
    · simp [hg, writeClutCell]

theorem clutFillB_eval (t : ClutTable) (g r b g2 r2 : Nat) (j : Fin 3) :
    clutFillB t g r b g2 r2 j
      = if g2 = g ∧ r2 = r ∧ b < GRIDPOINTS then identityTriple r g b j
        else t b g2 r2 j := by
  unfold clutFillB
  rw [clutFillB_list g r (List.range GRIDPOINTS) t b g2 r2 j]
  simp [List.mem_range]

theorem clutFillG_list (r : Nat) :
    ∀ (l : List Nat) (t : ClutTable) (b g2 r2 : Nat) (j : Fin 3),
      (l.foldl (fun t g => clutFillB t g r) t) b g2 r2 j
        = if r2 = r ∧ g2 ∈ l ∧ b < GRIDPOINTS then identityTriple r g2 b j
          else t b g2 r2 j := by
  intro l
  induction l with
  | nil => intro t b g2 r2 j; simp
  | cons g3 rest ih =>
    intro t b g2 r2 j
    rw [List.foldl_cons, ih, clutFillB_eval]
    by_cases hr : r2 = r
    · by_cases hb : b < GRIDPOINTS
      · by_cases hg : g2 ∈ rest
        · simp [hr, hb, hg]
        · by_cases hgg : g2 = g3
          · subst hgg
            simp [hr, hb, hg]
          · simp [List.mem_cons, hr, hb, hg, hgg]
      · simp [hb]
    · simp [hr]

theorem clutFillG_eval (t : ClutTable) (r b g2 r2 : Nat) (j : Fin 3) :
    clutFillG t r b g2 r2 j
      = if r2 = r ∧ g2 < GRIDPOINTS ∧ b < GRIDPOINTS then identityTriple r g2 b j
        else t b g2 r2 j := by
  unfold clutFillG
  rw [clutFillG_list r (List.range GRIDPOINTS) t b g2 r2 j]
  simp [List.mem_range]

theorem clutIdentityPass_list :
    ∀ (l : List Nat) (t : ClutTable) (b g r : Nat) (j : Fin 3),
      (l.foldl (fun t r2 => clutFillG t r2) t) b g r j
        = if r ∈ l ∧ g < GRIDPOINTS ∧ b < GRIDPOINTS then identityTriple r g b j
          else t b g r j := by
  intro l
  induction l with
  | nil => intro t b g r j; simp
  | cons r3 rest ih =>
    intro t b g r j
    rw [List.foldl_cons, ih, clutFillG_eval]
    by_cases hg : g < GRIDPOINTS
    · by_cases hb : b < GRIDPOINTS
      · by_cases hr : r ∈ rest
        · simp [hg, hb, hr]
        · by_cases hrr : r = r3
          · subst hrr
            simp [hg, hb, hr]
          · simp [List.mem_cons, hg, hb, hr, hrr]
      · simp [hb]
    · simp [hg]

theorem clutIdentityPass_eval (t : ClutTable) (b g r : Nat) (j : Fin 3) :
    clutIdentityPass t b g r j
      = if r < GRIDPOINTS ∧ g < GRIDPOINTS ∧ b < GRIDPOINTS
        then identityTriple r g b j else t b g r j := by
  unfold clutIdentityPass
  rw [clutIdentityPass_list (List.range GRIDPOINTS) t b g r j]
  simp [List.mem_range]

theorem idVal_near :
    ∀ i : Fin 64,
      65535 * i.1 ≤ 63 * idVal i.1 + 31 ∧ 63 * idVal i.1 ≤ 65535 * i.1 + 31 := by
  decide

/-- Claim C8: after the identity initialisation, the grid cell at index
`[b][g][r]` holds the channel triple `(idVal r, idVal g, idVal b)` — the
`[b][g][r]` index order with innermost channels R, G, B documented in the
source and uploaded verbatim by `glTexImage3D` — and `idVal i` is the
16-bit device code nearest to `i/63` of full scale: it lies within half a
grid step (31/63 of a device code times 63) of `65535 * i / 63`, and any
code with that property is `idVal i` itself (the rounding never ties since
63 is odd). -/
theorem C8_identity_clut (tbl : ClutTable) (b g r : Fin 64) (n : Nat) :
    clutIdentityPass tbl b.1 g.1 r.1 0 = idVal r.1 ∧
    clutIdentityPass tbl b.1 g.1 r.1 1 = idVal g.1 ∧
    clutIdentityPass tbl b.1 g.1 r.1 2 = idVal b.1 ∧
    65535 * r.1 ≤ 63 * idVal r.1 + 31 ∧ 63 * idVal r.1 ≤ 65535 * r.1 + 31 ∧
    (65535 * r.1 ≤ 63 * n + 31 → 63 * n ≤ 65535 * r.1 + 31 → n = idVal r.1) := by
  have hrange : r.1 < GRIDPOINTS ∧ g.1 < GRIDPOINTS ∧ b.1 < GRIDPOINTS :=
    ⟨r.2, g.2, b.2⟩
  refine ⟨?_, ?_, ?_, (idVal_near r).1, (idVal_near r).2, ?_⟩
  · rw [clutIdentityPass_eval, if_pos hrange]
    rfl
  · rw [clutIdentityPass_eval, if_pos hrange]
    rfl
  · rw [clutIdentityPass_eval, if_pos hrange]
    rfl
  · intro h1 h2
    have h3 := (idVal_near r).1
    have h4 := (idVal_near r).2
    omega

/-- Witness for C8: the unique nearest device code at axis position 7 is
7282, i.e. `idVal 7`. -/
theorem C8_witness : (7282 : Nat) = idVal 7 :=
  (C8_identity_clut (fun _ _ _ _ => 0) 0 0 ⟨7, by decide⟩ 7282).2.2.2.2.2
    (by decide) (by decide)

end Compicc
